import Mathlib

/-!
# BoTCoin — verification of the volatility-adaptive stop/activation engine

A shallow embedding, over `ℚ`, of the position engine and calibration code of
the BoTCoin repository:

* `src/strategies/dualk.py` — activation/stop-price formulas (DualK mode);
* `src/main.py` — `process_closed_order`, `update_trailing_state` with its
  nested `calculate_stop_price` / `close_position` helpers;
* `src/core/state.py` — `save_closed_position`;
* `src/trading/parameters_manager.py` — `calculate_k_stops`,
  `get_volatility_level`, `get_k_stop`;
* `src/trading/market_analyzer.py` and `src/utils/market_noise_analyzer.py` —
  `detect_pivots` with false-pivot suppression.

Python floats are modelled as rationals; `round(x, n)` is modelled as rounding
to the nearest multiple of `10⁻ⁿ` (`roundTo`).  Configuration lookups
(`PARAMS[pair][side][...]`) become explicit parameters.  Where the Python code
performs dynamic-arity tuple unpacking or function calls, the arities of the
two sides are transcribed as constants and compared, mirroring Python's
run-time `ValueError`/`TypeError` behaviour.
-/

namespace BoTCoin

/-- Order side, the `"buy"` / `"sell"` strings of the source. -/
inductive Side where
  | buy
  | sell
deriving DecidableEq

/-- Trading mode, the `MODE` configuration value (`"onek"` / `"dualk"`). -/
inductive Mode where
  | onek
  | dualk
deriving DecidableEq

/-- Exceptions raised by the Python runtime that the embedding tracks. -/
inductive PyErr where
  | valueError
  | typeError
deriving DecidableEq

/-- Python's `round(x, prec)`, modelled as rounding to the nearest multiple of
`10⁻ᵖʳᵉᶜ` (ties are immaterial to every claim below). -/
def roundTo (prec : ℕ) (x : ℚ) : ℚ :=
  (round (x * 10 ^ prec) : ℤ) / 10 ^ prec

namespace Dualk

/-- `dualk.calculate_activation_dist(side, atr_value, pair)`:
`PARAMS[pair][side]["K_ACT"] * atr_value`.  The configuration lookup is the
explicit argument `k_act`. -/
def calculate_activation_dist (k_act : ℚ) (atr_value : ℚ) : ℚ :=
  k_act * atr_value

/-- `dualk.process_order(side, entry_price, atr_val, pair)`.  Returns the
two-element tuple `(new_side, activation_price)` exactly as the source's
`return new_side, activation_price`. -/
def process_order (k_act : ℚ) (side : Side) (entry_price atr_val : ℚ) :
    Side × ℚ :=
  let p : Side × ℚ :=
    match side with
    | .buy => (.sell, 1)
    | .sell => (.buy, -1)
  let activation_distance := calculate_activation_dist k_act atr_val
  (p.1, entry_price + p.2 * activation_distance)

/-- Number of components of the tuple returned by `dualk.process_order`
(`return new_side, activation_price`). -/
def process_order_tuple_len : ℕ := 2

/-- `dualk.calculate_stop_price(side, entry_price, trailing_ref_price,
atr_val, pair)`.  `k_stop` and `min_margin_cfg` are the
`PARAMS[pair][side]["K_STOP"]` / `["MIN_MARGIN"]` lookups. -/
def calculate_stop_price (k_stop min_margin_cfg : ℚ) (side : Side)
    (entry_price trailing_ref_price atr_val : ℚ) : ℚ :=
  let stop_distance := k_stop * atr_val
  let min_margin := entry_price * min_margin_cfg
  let stop_distance :=
    if min_margin ≠ 0 then
      match side with
      | .sell => min stop_distance (max 0 ((trailing_ref_price - entry_price) - min_margin))
      | .buy => min stop_distance (max 0 ((entry_price - trailing_ref_price) - min_margin))
    else stop_distance
  match side with
  | .sell => trailing_ref_price - stop_distance
  | .buy => trailing_ref_price + stop_distance

end Dualk

/-- A live trailing position: the JSON object stored per order id in
`trailing_state[pair]` by `src/main.py`.  Absent dict keys are `Option`s;
timestamps and order-id lists are modelled as naturals. -/
structure TPos where
  side : Side
  mode : Mode
  created_time : ℕ
  opening_order : List ℕ
  entry_price : ℚ
  volume : ℚ
  cost : ℚ
  activation_atr : ℚ
  activation_price : ℚ
  reference_price : Option ℚ := none
  trailing_price : Option ℚ := none
  stop_price : ℚ := 0
  stop_atr : ℚ := 0
  closing_time : Option ℕ := none
  pnl : Option ℚ := none
deriving DecidableEq

namespace MainLoop

/-- `get_reference_price(pos)`: `pos.get("reference_price", pos["entry_price"])`. -/
def get_reference_price (pos : TPos) : ℚ :=
  pos.reference_price.getD pos.entry_price

/-- The nested `calculate_stop_price(pos, atr_val, trailing_price)` of
`update_trailing_state` in DualK mode: computes the stop via
`dualk.calculate_stop_price` with the reference price as entry, then writes
`trailing_price`, `stop_price` (rounded to 1 decimal) and `stop_atr` back into
the position. -/
def calc_stop_update (k_stop min_margin_cfg : ℚ) (pos : TPos)
    (atr_val trailing_price : ℚ) : TPos :=
  let reference_price := get_reference_price pos
  let stop_price :=
    Dualk.calculate_stop_price k_stop min_margin_cfg pos.side
      reference_price trailing_price atr_val
  { pos with
      trailing_price := some trailing_price
      stop_price := roundTo 1 stop_price
      stop_atr := roundTo 1 atr_val }

/-- The ATR-deviation recalibration applied to an activated position
(`main.py` lines 272-274): if `atr_val` leaves the ±20% band around the stored
`stop_atr`, recompute the stop from the *stored* `trailing_price`. -/
def recalib_step (k_stop min_margin_cfg : ℚ) (pos : TPos) (atr_val : ℚ) : TPos :=
  if pos.stop_atr * (8/10) > atr_val ∨ atr_val > pos.stop_atr * (12/10) then
    calc_stop_update k_stop min_margin_cfg pos atr_val (pos.trailing_price.getD 0)
  else pos

/-- Result of one session pass over an activated position: either the close
path was entered (`close`, carrying the position as it was when the stop
comparison fired) or the loop continues with the updated position (`cont`). -/
inductive ActiveStepResult where
  | close (pos : TPos)
  | cont (pos : TPos)
deriving DecidableEq

/-- One session update of an activated position (`main.py` lines 271-284,
DualK mode): ATR-drift recalibration, then the stop-cross close check (gated
by `can_execute_sell` for sell positions, the boolean `sell_gate`), then the
trailing ratchet when price moved favourably past the stored
`trailing_price`. -/
def update_active (k_stop min_margin_cfg : ℚ) (pos : TPos)
    (current_price atr_val : ℚ) (sell_gate : Bool) : ActiveStepResult :=
  let pos1 := recalib_step k_stop min_margin_cfg pos atr_val
  if (pos1.side = .sell ∧ current_price ≤ pos1.stop_price ∧ sell_gate = true) ∨
     (pos1.side = .buy ∧ pos1.stop_price ≤ current_price) then
    .close pos1
  else
    let pos2 :=
      if (pos1.side = .sell ∧ pos1.trailing_price.getD 0 < current_price) ∨
         (pos1.side = .buy ∧ current_price < pos1.trailing_price.getD 0) then
        calc_stop_update k_stop min_margin_cfg pos1 atr_val current_price
      else pos1
    .cont pos2

end MainLoop

namespace State

/-- Number of parameters of `core.state.save_closed_position`:
`def save_closed_position(pos, order_id)`. -/
def save_closed_position_param_count : ℕ := 2

end State

namespace MainLoop

/-- Number of arguments passed at the call site inside `close_position`:
`save_closed_position(pos, closing_order, pair)` (`main.py` line 238). -/
def save_closed_position_call_arg_count : ℕ := 3

/-- The limit-order request handed to `place_limit_order(pair, side, price,
volume)`; the pair is fixed by the enclosing loop and omitted. -/
structure OrderReq where
  side : Side
  price : ℚ
  volume : ℚ
deriving DecidableEq

/-- Observable outcome of one run of the nested `close_position(order_id,
pos)` helper of `update_trailing_state`. -/
structure CloseResult where
  /-- the position dict after the run (it is mutated in place). -/
  pos_after : TPos
  /-- whether `del pair_state[order_id]` executed. -/
  removed : Bool
  /-- the position handed to the closed-positions store, if that write
  completed. -/
  saved : Option TPos
  /-- the request submitted to `place_limit_order`, if reached. -/
  order_req : Option OrderReq
  /-- the exception captured by the surrounding `except` handler, if any. -/
  raised : Option PyErr
deriving DecidableEq

/-- `close_position(order_id, pos)` (`main.py` lines 209-242).  `order_result`
is the value returned by `place_limit_order` (`none` models a falsy/failed
placement); `now_ts` models `now_str()`.  The body runs inside
`try/except Exception`: the call `save_closed_position(pos, closing_order,
pair)` passes three arguments to a two-parameter function, which raises
`TypeError`, caught by that handler. -/
def close_position (pos : TPos) (order_result : Option ℕ) (now_ts : ℕ) :
    CloseResult :=
  let entry_price := pos.entry_price
  let stop_price := pos.stop_price
  let cv : ℚ × ℚ × ℚ :=
    match pos.side with
    | .sell => (pos.volume * stop_price, pos.volume,
        (stop_price - entry_price) / entry_price * 100)
    | .buy => (pos.cost, pos.cost / stop_price,
        (entry_price - stop_price) / entry_price * 100)
  let cost := cv.1
  let volume := cv.2.1
  let pnl := cv.2.2
  let req : OrderReq := ⟨pos.side, stop_price, volume⟩
  match order_result with
  | none => ⟨pos, false, none, some req, none⟩
  | some _ =>
    let pos1 := { pos with
      cost := roundTo 2 cost
      volume := roundTo 8 volume
      closing_time := some now_ts
      pnl := some (roundTo 2 pnl) }
    if State.save_closed_position_param_count = save_closed_position_call_arg_count then
      ⟨pos1, true, some pos1, some req, none⟩
    else
      ⟨pos1, false, none, some req, some .typeError⟩

/-- The per-pair live state: the `pair_state` dict, an insertion-ordered map
from order id to position. -/
abbrev PairState := List (ℕ × TPos)

/-- The merge scan of `process_closed_order` (`main.py` lines 96-105): the
first position whose `mode` matches the running `MODE`, whose side equals the
new side, which is still pending (`trailing_price is None`), and whose
reference price is within 0.5% of the new entry price. -/
def find_merge_target (mode : Mode) (st : PairState) (new_side : Side)
    (entry_price : ℚ) : Option (ℕ × TPos) :=
  st.find? fun ep =>
    let pos := ep.2
    let reference_price := get_reference_price pos
    pos.mode = mode ∧ pos.side = new_side ∧ pos.trailing_price = none ∧
      |reference_price - entry_price| / reference_price * 100 < 1/2

/-- Replace the entry with key `eid` by `p` (the in-place dict mutation). -/
def update_entry (st : PairState) (eid : ℕ) (p : TPos) : PairState :=
  st.map fun ep => if ep.1 = eid then (ep.1, p) else ep

/-- The merge-or-create tail of `process_closed_order` (`main.py` lines
96-143), entered with the already-unpacked strategy result.  On a merge, a
sell-side position sums the volumes and recomputes the cost from the stored
entry price; a buy-side position sums the costs and recomputes the volume
from the stored entry price.  Otherwise a fresh pending position is added
under the order id. -/
def merge_or_create (mode : Mode) (st : PairState) (order_id : ℕ)
    (new_side : Side) (entry_price volume cost atr_value activation_price : ℚ)
    (now_ts : ℕ) : PairState :=
  match find_merge_target mode st new_side entry_price with
  | some (existing_id, existing_pos) =>
    let merged :=
      match new_side with
      | .sell =>
        let new_volume := existing_pos.volume + volume
        let new_cost := new_volume * existing_pos.entry_price
        { existing_pos with
            volume := roundTo 8 new_volume
            cost := roundTo 2 new_cost
            opening_order := existing_pos.opening_order ++ [order_id] }
      | .buy =>
        let new_cost := existing_pos.cost + cost
        let new_volume := new_cost / existing_pos.entry_price
        { existing_pos with
            volume := roundTo 8 new_volume
            cost := roundTo 2 new_cost
            opening_order := existing_pos.opening_order ++ [order_id] }
    update_entry st existing_id merged
  | none =>
    st ++ [(order_id,
      { side := new_side
        mode := mode
        created_time := now_ts
        opening_order := [order_id]
        entry_price := entry_price
        volume := volume
        cost := roundTo 2 cost
        activation_atr := roundTo 1 atr_value
        activation_price := roundTo 1 activation_price })]

/-- Number of names on the left of the unpacking assignment in
`process_closed_order` (`main.py` lines 92/94):
`new_side, atr_value, activation_price = ..._mode.process_order(...)`. -/
def process_order_unpack_count : ℕ := 3

/-- `process_closed_order(order_id, order, pair_state, current_atr, pair)` in
DualK mode.  `dualk.process_order` returns a two-element tuple while the call
site unpacks three names, so Python raises `ValueError` before any state is
touched; the embedding guards the tail with the two transcribed arities. -/
def process_closed_order (k_act : ℚ) (st : PairState) (order_id : ℕ)
    (side : Side) (entry_price volume cost current_atr : ℚ) (now_ts : ℕ) :
    Except PyErr PairState :=
  if Dualk.process_order_tuple_len = process_order_unpack_count then
    let r := Dualk.process_order k_act side entry_price current_atr
    -- (unreachable under the source's arities; `atr_value` would be the
    -- second unpacked name)
    .ok (merge_or_create .dualk st order_id r.1 entry_price volume cost
      current_atr r.2 now_ts)
  else
    .error .valueError

end MainLoop

namespace ParamsMgr

/-- The four volatility levels of `trading/parameters_manager.py`
(`vols = ["LV", "MV", "HV", "EV"]`). -/
inductive Level where
  | LV
  | MV
  | HV
  | EV
deriving DecidableEq

/-- The `K_STOP` dict of one side: volatility level → optional multiplier. -/
structure LevelMap where
  lv : Option ℚ
  mv : Option ℚ
  hv : Option ℚ
  ev : Option ℚ
deriving DecidableEq

/-- `K_STOP.get(vol)`. -/
def LevelMap.get (m : LevelMap) : Level → Option ℚ
  | .LV => m.lv
  | .MV => m.mv
  | .HV => m.hv
  | .EV => m.ev

/-- The per-pair ATR percentile breakpoints `PAIRS[pair]['atr_50pct']` etc. -/
structure AtrThresholds where
  atr_50pct : ℚ
  atr_80pct : ℚ
  atr_95pct : ℚ

/-- `get_volatility_level(pair, atr_val)`. -/
def get_volatility_level (th : AtrThresholds) (atr_val : ℚ) : Level :=
  if atr_val < th.atr_50pct then .LV
  else if atr_val < th.atr_80pct then .MV
  else if atr_val < th.atr_95pct then .HV
  else .EV

/-- `vols = ["LV", "MV", "HV", "EV"]`. -/
def vols : List Level := [.LV, .MV, .HV, .EV]

/-- `vols.index(vol)`. -/
def Level.idx : Level → ℕ
  | .LV => 0
  | .MV => 1
  | .HV => 2
  | .EV => 3

/-- The neighbour scan order of `get_k_stop`: for `offset` in `1..3`, the
candidates `idx - offset` and `idx + offset`, keeping those inside
`[0, len(vols))`. -/
def neighbor_levels (vol : Level) : List Level :=
  (([1, 2, 3] : List ℤ).flatMap fun offset =>
      [(vol.idx : ℤ) - offset, (vol.idx : ℤ) + offset]).filterMap
    fun j => if 0 ≤ j ∧ j < 4 then vols.get? j.toNat else none

/-- Body of `get_k_stop` after `vol = get_volatility_level(pair, atr_val)`:
look up the requested side at `vol`, fall back to the opposite side at `vol`,
then search the *requested* side's neighbouring levels outward. -/
def get_k_stop_at (side_map op_map : LevelMap) (vol : Level) : Option ℚ :=
  match side_map.get vol with
  | some k_stop => some k_stop
  | none =>
    match op_map.get vol with
    | some k_stop => some k_stop
    | none => (neighbor_levels vol).findSome? side_map.get

/-- `get_k_stop(pair, side, atr_val)`. -/
def get_k_stop (side_map op_map : LevelMap) (th : AtrThresholds)
    (atr_val : ℚ) : Option ℚ :=
  get_k_stop_at side_map op_map (get_volatility_level th atr_val)

/-- One tagged excursion event as consumed by `calculate_k_stops`: the fields
`e['atr_at_max']` and `e['k_value']`. -/
structure NoiseEvent where
  atr_at_max : ℚ
  k_value : ℚ
deriving DecidableEq

/-- Linear-interpolation quantile of a list of values, the semantics of
`pd.Series(...).quantile(pct)`: with the values sorted ascending and
`h = (n-1)·pct`, interpolate between the values at `⌊h⌋` and `⌊h⌋+1`. -/
def quantile (xs : List ℚ) (pct : ℚ) : ℚ :=
  let s := xs.insertionSort (· ≤ ·)
  if s.length = 0 then 0
  else
    let h : ℚ := ((s.length : ℚ) - 1) * pct
    let i : ℕ := (Int.floor h).toNat
    let lo := s.getD i 0
    let hi := s.getD (i + 1) lo
    lo + (h - Int.floor h) * (hi - lo)

/-- `math.ceil(value * 10) / 10`, the one-decimal ceiling of
`get_pct_k_value`. -/
def ceil10 (x : ℚ) : ℚ :=
  (Int.ceil (x * 10) : ℚ) / 10

/-- The nested `get_pct_k_value(events, pct)` of `calculate_k_stops`. -/
def get_pct_k_value (events : List NoiseEvent) (pct : ℚ) : Option ℚ :=
  if events = [] then none
  else some (ceil10 (quantile (events.map NoiseEvent.k_value) pct))

/-- The volatility bucket of `calculate_k_stops` for one level: the events
whose `atr_at_max` falls in the level's breakpoint range. -/
def bucket (th : AtrThresholds) (events : List NoiseEvent) : Level → List NoiseEvent
  | .LV => events.filter fun e => e.atr_at_max < th.atr_50pct
  | .MV => events.filter fun e => th.atr_50pct ≤ e.atr_at_max ∧ e.atr_at_max < th.atr_80pct
  | .HV => events.filter fun e => th.atr_80pct ≤ e.atr_at_max ∧ e.atr_at_max < th.atr_95pct
  | .EV => events.filter fun e => th.atr_95pct ≤ e.atr_at_max

/-- The percentile used per level (`0.90` for LV/MV, `0.75` for HV/EV). -/
def level_pct : Level → ℚ
  | .LV => 9/10
  | .MV => 9/10
  | .HV => 3/4
  | .EV => 3/4

/-- `calculate_k_stops(pair, events_data)`. -/
def calculate_k_stops (th : AtrThresholds) (events_data : List NoiseEvent) :
    LevelMap :=
  if events_data = [] then ⟨none, none, none, none⟩
  else
    { lv := get_pct_k_value (bucket th events_data .LV) (level_pct .LV)
      mv := get_pct_k_value (bucket th events_data .MV) (level_pct .MV)
      hv := get_pct_k_value (bucket th events_data .HV) (level_pct .HV)
      ev := get_pct_k_value (bucket th events_data .EV) (level_pct .EV) }

end ParamsMgr

namespace Pivots

/-- One OHLC row as used by `detect_pivots`: the `low`, `high` and `dtime`
columns. -/
structure Candle where
  low : ℚ
  high : ℚ
  dtime : ℕ
deriving DecidableEq

/-- Pivot kind: the `'min'` / `'max'` tags. -/
inductive PType where
  | pmin
  | pmax
deriving DecidableEq

/-- One pivot tuple `(i, type, price, dtime)`. -/
structure Pivot where
  idx : ℕ
  ptype : PType
  price : ℚ
  dtime : ℕ
deriving DecidableEq

/-- Index clipping of `np.take(..., mode='clip')`: clamp into `[0, n-1]`. -/
def clip_idx (n : ℕ) (j : ℤ) : ℕ :=
  (max 0 (min j ((n : ℤ) - 1))).toNat

/-- `scipy.signal.argrelextrema(data, comparator, order=order)` membership:
index `i` qualifies when `comparator(data[i], data[clip(i ± shift)])` holds
for every `shift` in `1..order` (boundary indices clipped). -/
def is_rel_extremum (cmp : ℚ → ℚ → Bool) (data : List ℚ) (order i : ℕ) : Bool :=
  (List.range order).all fun k =>
    cmp (data.getD i 0) (data.getD (clip_idx data.length ((i : ℤ) + ((k : ℤ) + 1))) 0) &&
    cmp (data.getD i 0) (data.getD (clip_idx data.length ((i : ℤ) - ((k : ℤ) + 1))) 0)

/-- The pivot list before suppression: minima from the `low` column
(`np.less_equal`), maxima from the `high` column (`np.greater_equal`),
concatenated and stably sorted by index — at an equal index the minimum
precedes the maximum because all minima were appended first. -/
def build_pivots (df : List Candle) (order : ℕ) : List Pivot :=
  let lows := df.map Candle.low
  let highs := df.map Candle.high
  (List.range df.length).flatMap fun i =>
    let c := df.getD i ⟨0, 0, 0⟩
    (if is_rel_extremum (· ≤ ·) lows order i then [⟨i, .pmin, c.low, c.dtime⟩] else []) ++
    (if is_rel_extremum (fun a b => b ≤ a) highs order i then [⟨i, .pmax, c.high, c.dtime⟩] else [])

/-- The false-pivot suppression loop of
`trading/market_analyzer.py::detect_pivots` (lines 119-134), one recursive
call per loop iteration, bounded by `fuel` (`none` = the loop has not exited
within `fuel` iterations).  Same-type neighbours collapse to the more extreme
one; opposite-type neighbours closer than `min_change_pct` drop the later
one; opposite-type neighbours with *equal* prices match no branch and leave
the state untouched. -/
def suppress_ma (min_change_pct : ℚ) : ℕ → List Pivot → ℕ → Option (List Pivot)
  | 0, _, _ => none
  | fuel + 1, pivots, i =>
    match pivots[i]?, pivots[i + 1]? with
    | some curr, some next =>
      if curr.ptype = next.ptype then
        if (curr.ptype = .pmax ∧ next.price ≤ curr.price) ∨
           (curr.ptype = .pmin ∧ curr.price ≤ next.price) then
          suppress_ma min_change_pct fuel (pivots.eraseIdx (i + 1)) i
        else
          suppress_ma min_change_pct fuel (pivots.eraseIdx i) i
      else
        if curr.price ≠ next.price then
          if |curr.price - next.price| / curr.price < min_change_pct then
            suppress_ma min_change_pct fuel (pivots.eraseIdx (i + 1)) i
          else
            suppress_ma min_change_pct fuel pivots (i + 1)
        else
          suppress_ma min_change_pct fuel pivots i
    | _, _ => some pivots

/-- The suppression loop of
`utils/market_noise_analyzer.py::detect_pivots` (lines 65-77): as above but
with no minimum-change rule — opposite-type neighbours always advance the
cursor. -/
def suppress_noise : ℕ → List Pivot → ℕ → Option (List Pivot)
  | 0, _, _ => none
  | fuel + 1, pivots, i =>
    match pivots[i]?, pivots[i + 1]? with
    | some curr, some next =>
      if curr.ptype = next.ptype then
        if (curr.ptype = .pmax ∧ next.price ≤ curr.price) ∨
           (curr.ptype = .pmin ∧ curr.price ≤ next.price) then
          suppress_noise fuel (pivots.eraseIdx (i + 1)) i
        else
          suppress_noise fuel (pivots.eraseIdx i) i
      else
        suppress_noise fuel pivots (i + 1)
    | _, _ => some pivots

/-- `trading/market_analyzer.py::detect_pivots(df, order)`. -/
def detect_pivots_ma (min_change_pct : ℚ) (fuel : ℕ) (df : List Candle)
    (order : ℕ) : Option (List Pivot) :=
  suppress_ma min_change_pct fuel (build_pivots df order) 0

/-- `utils/market_noise_analyzer.py::detect_pivots(df, order)`. -/
def detect_pivots_noise (fuel : ℕ) (df : List Candle) (order : ℕ) :
    Option (List Pivot) :=
  suppress_noise fuel (build_pivots df order) 0

/-- Strict min/max alternation: no two adjacent pivots share a type. -/
def Alternating (l : List Pivot) : Prop :=
  List.Chain' (fun a b => a.ptype ≠ b.ptype) l

end Pivots

/-! ## Claim theorems -/

namespace ParamsMgr

/-- The neighbour scan order from `LV`. -/
theorem neighbor_levels_LV : neighbor_levels .LV = [.MV, .HV, .EV] := by decide

/-- The neighbour scan order from `MV`. -/
theorem neighbor_levels_MV : neighbor_levels .MV = [.LV, .HV, .EV] := by decide

/-- The neighbour scan order from `HV`. -/
theorem neighbor_levels_HV : neighbor_levels .HV = [.MV, .EV, .LV] := by decide

/-- The neighbour scan order from `EV`. -/
theorem neighbor_levels_EV : neighbor_levels .EV = [.HV, .MV, .LV] := by decide

/-- A side's `K_STOP` dict has a populated level iff one of its four fields
is populated. -/
theorem exists_get_iff (s : LevelMap) :
    (∃ l, s.get l ≠ none) ↔
      (s.lv ≠ none ∨ s.mv ≠ none ∨ s.hv ≠ none ∨ s.ev ≠ none) := by
  constructor
  · rintro ⟨l, hl⟩
    cases l <;> simp_all [LevelMap.get]
  · rintro (h | h | h | h)
    exacts [⟨.LV, h⟩, ⟨.MV, h⟩, ⟨.HV, h⟩, ⟨.EV, h⟩]

/-- `get_k_stop_at` succeeds iff the requested side has data at *some* level
or the opposite side has data at the requested level. -/
theorem get_k_stop_at_ne_none_iff (s o : LevelMap) (vol : Level) :
    get_k_stop_at s o vol ≠ none ↔
      ((∃ l, s.get l ≠ none) ∨ o.get vol ≠ none) := by
  obtain ⟨slv, smv, shv, sev⟩ := s
  obtain ⟨olv, omv, ohv, oev⟩ := o
  rw [exists_get_iff]
  cases vol
  · cases slv <;> cases smv <;> cases shv <;> cases sev <;> cases olv <;>
      simp_all [get_k_stop_at, LevelMap.get, neighbor_levels_LV]
  · cases slv <;> cases smv <;> cases shv <;> cases sev <;> cases omv <;>
      simp_all [get_k_stop_at, LevelMap.get, neighbor_levels_MV]
  · cases slv <;> cases smv <;> cases shv <;> cases sev <;> cases ohv <;>
      simp_all [get_k_stop_at, LevelMap.get, neighbor_levels_HV]
  · cases slv <;> cases smv <;> cases shv <;> cases sev <;> cases oev <;>
      simp_all [get_k_stop_at, LevelMap.get, neighbor_levels_EV]

end ParamsMgr

/-- C2 counterexample: the requested side has no data at any level and the
opposite side has data only at `LV`, while the current ATR (15, thresholds
10/20/30) classifies as `MV`: `get_k_stop` returns `none` although a level on
the opposite side has data, contradicting the claim's totality. -/
theorem c2_counterexample :
    ParamsMgr.get_k_stop ⟨none, none, none, none⟩ ⟨some 2, none, none, none⟩
        ⟨10, 20, 30⟩ 15 = none ∧
    (⟨some 2, none, none, none⟩ : ParamsMgr.LevelMap).get .LV ≠ none := by
  constructor
  · have hvol : ParamsMgr.get_volatility_level ⟨10, 20, 30⟩ 15 = .MV := by
      norm_num [ParamsMgr.get_volatility_level]
    rw [ParamsMgr.get_k_stop, hvol]
    simp [ParamsMgr.get_k_stop_at, ParamsMgr.LevelMap.get,
      ParamsMgr.neighbor_levels_MV]
  · simp [ParamsMgr.LevelMap.get]

/-- The one-decimal ceiling never under-estimates. -/
theorem ParamsMgr.le_ceil10 (x : ℚ) : x ≤ ParamsMgr.ceil10 x := by
  have h := Int.le_ceil (x * 10)
  rw [ParamsMgr.ceil10]
  linarith

/-- `calculate_k_stops` looks up to `get_pct_k_value` on the level's bucket. -/
theorem ParamsMgr.calculate_k_stops_get (th : ParamsMgr.AtrThresholds)
    (events : List ParamsMgr.NoiseEvent) (lvl : ParamsMgr.Level) :
    (ParamsMgr.calculate_k_stops th events).get lvl =
      ParamsMgr.get_pct_k_value (ParamsMgr.bucket th events lvl)
        (ParamsMgr.level_pct lvl) := by
  by_cases h : events = []
  · subst h
    cases lvl <;>
      simp [ParamsMgr.calculate_k_stops, ParamsMgr.LevelMap.get,
        ParamsMgr.bucket, ParamsMgr.get_pct_k_value]
  · cases lvl <;>
      simp [ParamsMgr.calculate_k_stops, h, ParamsMgr.LevelMap.get]

/-- C6: for every event list, thresholds and level, the `calculate_k_stops`
entry for that level is absent when the level's bucket is empty, and
otherwise equals the level's configured percentile of its k-values rounded
*up* to one decimal: it is an integer multiple of 0.1 and is ≥ the raw
percentile value. -/
theorem c6_calculate_k_stops_ceiling (th : ParamsMgr.AtrThresholds)
    (events : List ParamsMgr.NoiseEvent) (lvl : ParamsMgr.Level) :
    (ParamsMgr.bucket th events lvl = [] →
      (ParamsMgr.calculate_k_stops th events).get lvl = none) ∧
    ∀ v, (ParamsMgr.calculate_k_stops th events).get lvl = some v →
      v = ParamsMgr.ceil10
          (ParamsMgr.quantile
            ((ParamsMgr.bucket th events lvl).map ParamsMgr.NoiseEvent.k_value)
            (ParamsMgr.level_pct lvl)) ∧
      ParamsMgr.quantile
          ((ParamsMgr.bucket th events lvl).map ParamsMgr.NoiseEvent.k_value)
          (ParamsMgr.level_pct lvl) ≤ v ∧
      ∃ m : ℤ, v = (m : ℚ) / 10 := by
  rw [ParamsMgr.calculate_k_stops_get]
  constructor
  · intro h
    simp [ParamsMgr.get_pct_k_value, h]
  · intro v hv
    by_cases h : ParamsMgr.bucket th events lvl = []
    · simp [ParamsMgr.get_pct_k_value, h] at hv
    · rw [ParamsMgr.get_pct_k_value, if_neg h] at hv
      obtain rfl : _ = v := Option.some_injective _ hv
      exact ⟨rfl, ParamsMgr.le_ceil10 _, ⟨_, rfl⟩⟩

/-- C6 witness: thresholds 10/20/30 and the single event
`{atr_at_max := 5, k_value := 1.23}` populate the `LV` bucket; the stored
multiplier is `1.3 = ceil10 1.23`, a multiple of 0.1 and ≥ the raw 90th
percentile 1.23. -/
theorem c6_witness :
    (13/10 : ℚ) = ParamsMgr.ceil10
        (ParamsMgr.quantile
          ((ParamsMgr.bucket ⟨10, 20, 30⟩ [⟨5, 123/100⟩] .LV).map
            ParamsMgr.NoiseEvent.k_value)
          (ParamsMgr.level_pct .LV)) ∧
    ParamsMgr.quantile
        ((ParamsMgr.bucket ⟨10, 20, 30⟩ [⟨5, 123/100⟩] .LV).map
          ParamsMgr.NoiseEvent.k_value)
        (ParamsMgr.level_pct .LV) ≤ 13/10 ∧
    ∃ m : ℤ, (13/10 : ℚ) = (m : ℚ) / 10 := by
  refine (c6_calculate_k_stops_ceiling ⟨10, 20, 30⟩ [⟨5, 123/100⟩] .LV).2
    (13/10) ?_
  rw [ParamsMgr.calculate_k_stops_get]
  have hb : ParamsMgr.bucket ⟨10, 20, 30⟩ [⟨5, (123:ℚ)/100⟩] .LV =
      [⟨5, 123/100⟩] := by
    norm_num [ParamsMgr.bucket]
  rw [hb]
  have hq : ParamsMgr.quantile [(123:ℚ)/100] (ParamsMgr.level_pct .LV) =
      123/100 := by
    norm_num [ParamsMgr.quantile, ParamsMgr.level_pct, List.insertionSort,
      List.orderedInsert]
  have hc : ⌈(123 : ℚ) / 10⌉ = (13 : ℤ) := by
    rw [Int.ceil_eq_iff]
    norm_num
  norm_num [ParamsMgr.get_pct_k_value, hq, ParamsMgr.ceil10, hc]

/-- C2 amended: for every pair of side dicts, thresholds and ATR value,
`get_k_stop` returns a non-null multiplier iff the requested side has a
non-null entry at some level or the opposite side has a non-null entry at the
*current* volatility level; the opposite side's other levels are never
searched. -/
theorem c2_get_k_stop_ne_none_iff (s o : ParamsMgr.LevelMap)
    (th : ParamsMgr.AtrThresholds) (atr_val : ℚ) :
    ParamsMgr.get_k_stop s o th atr_val ≠ none ↔
      ((∃ l, s.get l ≠ none) ∨
        o.get (ParamsMgr.get_volatility_level th atr_val) ≠ none) :=
  ParamsMgr.get_k_stop_at_ne_none_iff s o _

namespace Pivots

/-- Erasing at position `i+1` leaves the prefix of length `i+1` intact. -/
theorem take_eraseIdx_succ {α : Type _} (l : List α) (i : ℕ) :
    (l.eraseIdx (i + 1)).take (i + 1) = l.take (i + 1) := by
  rw [List.eraseIdx_eq_take_drop_succ, List.take_append_eq_append_take]
  have h1 : (l.take (i + 1)).take (i + 1) = l.take (i + 1) :=
    List.take_of_length_le (by rw [List.length_take]; omega)
  rcases le_or_lt l.length (i + 1) with hle | hlt
  · have hd : l.drop (i + 1 + 1) = [] := List.drop_eq_nil_of_le (by omega)
    rw [h1, hd, List.take_nil, List.append_nil]
  · have hlen : (l.take (i + 1)).length = i + 1 := by
      rw [List.length_take]; omega
    rw [h1, hlen, Nat.sub_self, List.take_zero, List.append_nil]

/-- `take (i+1)` splits off the element at `i`. -/
theorem take_succ_getElem {α : Type _} {l : List α} {i : ℕ} {a : α}
    (ha : l[i]? = some a) : l.take (i + 1) = l.take i ++ [a] := by
  rw [List.take_succ, ha]
  rfl

/-- After erasing at `i`, the prefix of length `i+1` ends in the old element
at `i+1`. -/
theorem take_succ_eraseIdx {α : Type _} {l : List α} {i : ℕ} {b : α}
    (hb : l[i + 1]? = some b) :
    (l.eraseIdx i).take (i + 1) = l.take i ++ [b] := by
  rw [List.eraseIdx_eq_take_drop_succ, List.take_append_eq_append_take]
  have hlen : (l.take i).length = i := by
    rw [List.length_take]
    rcases List.getElem?_eq_some.mp hb with ⟨h, -⟩
    omega
  have h1 : (l.take i).take (i + 1) = l.take i :=
    List.take_of_length_le (by rw [List.length_take]; omega)
  rw [h1, hlen]
  congr 1
  rw [show i + 1 - i = 0 + 1 by omega, List.take_succ, List.take_zero,
    List.getElem?_drop]
  simp [hb]

/-- Collapsing two same-type neighbours onto the later one preserves the
alternation of the processed prefix. -/
theorem chain'_take_erase_same_type {l : List Pivot} {i : ℕ} {c nx : Pivot}
    (hci : l[i]? = some c) (hni : l[i + 1]? = some nx)
    (hty : c.ptype = nx.ptype)
    (hinv : List.Chain' (fun a b => a.ptype ≠ b.ptype) (l.take (i + 1))) :
    List.Chain' (fun a b => a.ptype ≠ b.ptype)
      ((l.eraseIdx i).take (i + 1)) := by
  rw [take_succ_eraseIdx hni]
  rw [take_succ_getElem hci] at hinv
  rw [List.chain'_append] at hinv ⊢
  refine ⟨hinv.1, List.chain'_singleton _, ?_⟩
  intro x hx y hy
  have hR := hinv.2.2 x hx c (by simp)
  simp only [List.head?_cons, Option.mem_def, Option.some.injEq] at hy
  subst hy
  rw [← hty]
  exact hR

/-- Advancing the cursor over an opposite-type pair extends the alternating
prefix by one. -/
theorem chain'_take_advance {l : List Pivot} {i : ℕ} {c nx : Pivot}
    (hci : l[i]? = some c) (hni : l[i + 1]? = some nx)
    (hty : ¬c.ptype = nx.ptype)
    (hinv : List.Chain' (fun a b => a.ptype ≠ b.ptype) (l.take (i + 1))) :
    List.Chain' (fun a b => a.ptype ≠ b.ptype) (l.take (i + 1 + 1)) := by
  rw [take_succ_getElem hni, List.chain'_append]
  refine ⟨hinv, List.chain'_singleton _, ?_⟩
  intro x hx y hy
  rw [take_succ_getElem hci, List.getLast?_concat] at hx
  simp only [Option.mem_def, Option.some.injEq, List.head?_cons] at hx hy
  subst hx
  subst hy
  exact hty

/-- If the market-analyzer suppression loop returns, its output strictly
alternates, provided the prefix up to the cursor already does. -/
theorem suppress_ma_alternating (min_change_pct : ℚ) (fuel : ℕ) :
    ∀ (l : List Pivot) (i : ℕ) (out : List Pivot),
      List.Chain' (fun a b => a.ptype ≠ b.ptype) (l.take (i + 1)) →
      suppress_ma min_change_pct fuel l i = some out → Alternating out := by
  induction fuel with
  | zero =>
    intro l i out _ h
    exact absurd h (by simp [suppress_ma])
  | succ n ih =>
    intro l i out hinv h
    rw [suppress_ma] at h
    split at h
    · rename_i c nx hci hni
      split_ifs at h with h1 h2 h3 h4
      · exact ih _ _ _ (by rw [take_eraseIdx_succ]; exact hinv) h
      · exact ih _ _ _ (chain'_take_erase_same_type hci hni h1 hinv) h
      · exact ih _ _ _ (by rw [take_eraseIdx_succ]; exact hinv) h
      · exact ih _ _ _ (chain'_take_advance hci hni h1 hinv) h
      · exact ih _ _ _ hinv h
    · rename_i hcatch
      obtain rfl : l = out := Option.some.inj h
      have hlen : l.length ≤ i + 1 := by
        by_contra hcon
        push_neg at hcon
        have hi : i < l.length := by omega
        exact hcatch (l.get ⟨i, hi⟩) (l.get ⟨i + 1, hcon⟩)
          (List.getElem?_eq_getElem hi) (List.getElem?_eq_getElem hcon)
      rw [List.take_of_length_le (by omega)] at hinv
      exact hinv

/-- Same statement for the noise-analyzer suppression loop. -/
theorem suppress_noise_alternating (fuel : ℕ) :
    ∀ (l : List Pivot) (i : ℕ) (out : List Pivot),
      List.Chain' (fun a b => a.ptype ≠ b.ptype) (l.take (i + 1)) →
      suppress_noise fuel l i = some out → Alternating out := by
  induction fuel with
  | zero =>
    intro l i out _ h
    exact absurd h (by simp [suppress_noise])
  | succ n ih =>
    intro l i out hinv h
    rw [suppress_noise] at h
    split at h
    · rename_i c nx hci hni
      split_ifs at h with h1 h2
      · exact ih _ _ _ (by rw [take_eraseIdx_succ]; exact hinv) h
      · exact ih _ _ _ (chain'_take_erase_same_type hci hni h1 hinv) h
      · exact ih _ _ _ (chain'_take_advance hci hni h1 hinv) h
    · rename_i hcatch
      obtain rfl : l = out := Option.some.inj h
      have hlen : l.length ≤ i + 1 := by
        by_contra hcon
        push_neg at hcon
        have hi : i < l.length := by omega
        exact hcatch (l.get ⟨i, hi⟩) (l.get ⟨i + 1, hcon⟩)
          (List.getElem?_eq_getElem hi) (List.getElem?_eq_getElem hcon)
      rw [List.take_of_length_le (by omega)] at hinv
      exact hinv

/-- Any prefix of length one is trivially alternating. -/
theorem chain'_take_one (l : List Pivot) :
    List.Chain' (fun a b => a.ptype ≠ b.ptype) (l.take 1) := by
  cases l with
  | nil => exact List.chain'_nil
  | cons a t => exact List.chain'_singleton a

end Pivots

/-- C4: whenever either `detect_pivots` variant returns, the pivot sequence
after false-pivot suppression strictly alternates between minima and maxima
(no two adjacent pivots share a type); termination of the market-analyzer
variant is C10's separate concern. -/
theorem c4_detect_pivots_alternating :
    (∀ (min_change_pct : ℚ) (fuel : ℕ) (df : List Pivots.Candle) (order : ℕ)
        (out : List Pivots.Pivot),
      Pivots.detect_pivots_ma min_change_pct fuel df order = some out →
      Pivots.Alternating out) ∧
    (∀ (fuel : ℕ) (df : List Pivots.Candle) (order : ℕ)
        (out : List Pivots.Pivot),
      Pivots.detect_pivots_noise fuel df order = some out →
      Pivots.Alternating out) := by
  constructor
  · intro min_change_pct fuel df order out h
    exact Pivots.suppress_ma_alternating min_change_pct fuel _ 0 out
      (Pivots.chain'_take_one _) h
  · intro fuel df order out h
    exact Pivots.suppress_noise_alternating fuel _ 0 out
      (Pivots.chain'_take_one _) h

/-- C4 witness: a one-candle series (low 5, high 10) yields the pivot pair
min/max at index 0, the suppression loop returns it in two iterations, and
the output alternates. -/
theorem c4_witness :
    Pivots.Alternating [⟨0, .pmin, 5, 0⟩, ⟨0, .pmax, 10, 0⟩] :=
  c4_detect_pivots_alternating.1 (1/100) 2 [⟨5, 10, 0⟩] 1 _ (by
    have hb : Pivots.build_pivots [⟨5, 10, 0⟩] 1 =
        [⟨0, .pmin, 5, 0⟩, ⟨0, .pmax, 10, 0⟩] := by
      norm_num [Pivots.build_pivots, Pivots.is_rel_extremum, Pivots.clip_idx,
        List.range_succ]
    rw [Pivots.detect_pivots_ma, hb]
    rw [show (2 : ℕ) = 1 + 1 from rfl, Pivots.suppress_ma]
    norm_num
    rw [if_neg (by decide : ¬(Pivots.PType.pmin = Pivots.PType.pmax))]
    rw [show (1 : ℕ) = 0 + 1 from rfl, Pivots.suppress_ma]
    simp)

/-- C10: on a one-candle series whose low equals its high (price 100), the
pivot list is an adjacent min/max pair with equal prices; the suppression
loop's equal-price opposite-type case deletes nothing and never advances the
cursor, so `detect_pivots` makes no progress and returns for *no* amount of
fuel — the loop diverges. -/
theorem c10_detect_pivots_diverges :
    ∀ (min_change_pct : ℚ) (fuel : ℕ),
      Pivots.detect_pivots_ma min_change_pct fuel [⟨100, 100, 0⟩] 1 =
        none := by
  intro m fuel
  rw [Pivots.detect_pivots_ma]
  have hb : Pivots.build_pivots [⟨100, 100, 0⟩] 1 =
      [⟨0, .pmin, 100, 0⟩, ⟨0, .pmax, 100, 0⟩] := by
    norm_num [Pivots.build_pivots, Pivots.is_rel_extremum, Pivots.clip_idx,
      List.range_succ]
  rw [hb]
  induction fuel with
  | zero => rfl
  | succ n ih =>
    rw [Pivots.suppress_ma]
    norm_num
    exact ih

/-- A sell position about to close: entry 20000, stop 20550, volume 1
(the spec's scenario-4 numbers). -/
def scenario4Pos : TPos :=
  { side := .sell
    mode := .dualk
    created_time := 0
    opening_order := [1]
    entry_price := 20000
    volume := 1
    cost := 20000
    activation_atr := 100
    activation_price := 20450
    reference_price := none
    trailing_price := some 20800
    stop_price := 20550
    stop_atr := 100 }

/-- C5: when `place_limit_order` returns a null result, `close_position`
returns before any mutation: the position object is unchanged, it is not
removed from live state, and nothing is written to the closed-positions
store. -/
theorem c5_failed_placement_aborts_unchanged (pos : TPos) (now_ts : ℕ) :
    (MainLoop.close_position pos none now_ts).pos_after = pos ∧
    (MainLoop.close_position pos none now_ts).removed = false ∧
    (MainLoop.close_position pos none now_ts).saved = none ∧
    (MainLoop.close_position pos none now_ts).raised = none := by
  refine ⟨rfl, rfl, rfl, rfl⟩

/-- C3: closing the scenario-4 sell position with a *successful* order
placement does submit a sell limit order at the stored stop price 20550 and
computes `pnl = 2.75`, but the call `save_closed_position(pos, closing_order,
pair)` passes three arguments to the two-parameter
`core.state.save_closed_position`, so a `TypeError` is caught by the handler:
the position is neither persisted to the closed-positions store nor removed
from live state, contradicting the claim. -/
theorem c3_close_typeerror_keeps_position :
    (MainLoop.close_position scenario4Pos (some 7) 99).order_req =
      some ⟨.sell, 20550, 1⟩ ∧
    (MainLoop.close_position scenario4Pos (some 7) 99).pos_after.pnl =
      some (11/4) ∧
    (MainLoop.close_position scenario4Pos (some 7) 99).raised =
      some .typeError ∧
    (MainLoop.close_position scenario4Pos (some 7) 99).saved = none ∧
    (MainLoop.close_position scenario4Pos (some 7) 99).removed = false := by
  norm_num [MainLoop.close_position, scenario4Pos, roundTo, round_eq,
    State.save_closed_position_param_count,
    MainLoop.save_closed_position_call_arg_count, Int.floor_eq_iff]

/-- `round(·, prec)` is monotone. -/
theorem roundTo_mono (prec : ℕ) {x y : ℚ} (h : x ≤ y) :
    roundTo prec x ≤ roundTo prec y := by
  have h10 : (0 : ℚ) < 10 ^ prec := by positivity
  have hf : (⌊x * 10 ^ prec + 1 / 2⌋ : ℤ) ≤ ⌊y * 10 ^ prec + 1 / 2⌋ := by
    apply Int.floor_mono
    nlinarith
  rw [roundTo, roundTo, round_eq, round_eq]
  exact (div_le_div_iff_of_pos_right h10).mpr (by exact_mod_cast hf)

/-- Unfolding of the sell-side DualK stop formula. -/
theorem Dualk.calculate_stop_price_sell_eq (k m e t atr : ℚ) :
    Dualk.calculate_stop_price k m .sell e t atr =
      t - (if e * m ≠ 0 then min (k * atr) (max 0 ((t - e) - e * m))
           else k * atr) := rfl

/-- Unfolding of the buy-side DualK stop formula. -/
theorem Dualk.calculate_stop_price_buy_eq (k m e t atr : ℚ) :
    Dualk.calculate_stop_price k m .buy e t atr =
      t + (if e * m ≠ 0 then min (k * atr) (max 0 ((e - t) - e * m))
           else k * atr) := rfl

/-- The DualK stop is monotone in the trailing reference price, for both
sides: a more favourable trailing reference never loosens the stop. -/
theorem Dualk.calculate_stop_price_mono_trailing (k m : ℚ) (side : Side)
    (e : ℚ) {t u : ℚ} (h : t ≤ u) (atr : ℚ) :
    Dualk.calculate_stop_price k m side e t atr ≤
      Dualk.calculate_stop_price k m side e u atr := by
  cases side
  · rw [Dualk.calculate_stop_price_buy_eq, Dualk.calculate_stop_price_buy_eq]
    simp only [min_def, max_def]
    split_ifs <;> linarith
  · rw [Dualk.calculate_stop_price_sell_eq, Dualk.calculate_stop_price_sell_eq]
    simp only [min_def, max_def]
    split_ifs <;> linarith

/-- For a sell position the DualK stop is antitone in the ATR (a larger ATR
pushes the stop further below the trailing reference). -/
theorem Dualk.calculate_stop_price_atr_sell (k m e t : ℚ) (hk : 0 ≤ k)
    {a b : ℚ} (h : a ≤ b) :
    Dualk.calculate_stop_price k m .sell e t b ≤
      Dualk.calculate_stop_price k m .sell e t a := by
  have hab : k * a ≤ k * b := mul_le_mul_of_nonneg_left h hk
  rw [Dualk.calculate_stop_price_sell_eq, Dualk.calculate_stop_price_sell_eq]
  simp only [min_def, max_def]
  split_ifs <;> linarith

/-- For a buy position the DualK stop is monotone in the ATR. -/
theorem Dualk.calculate_stop_price_atr_buy (k m e t : ℚ) (hk : 0 ≤ k)
    {a b : ℚ} (h : a ≤ b) :
    Dualk.calculate_stop_price k m .buy e t a ≤
      Dualk.calculate_stop_price k m .buy e t b := by
  have hab : k * a ≤ k * b := mul_le_mul_of_nonneg_left h hk
  rw [Dualk.calculate_stop_price_buy_eq, Dualk.calculate_stop_price_buy_eq]
  simp only [min_def, max_def]
  split_ifs <;> linarith

/-- Field bookkeeping of the in-place stop update. -/
theorem MainLoop.calc_stop_update_fields (k m : ℚ) (pos : TPos)
    (atr_val trailing_price : ℚ) :
    (MainLoop.calc_stop_update k m pos atr_val trailing_price).side = pos.side ∧
    (MainLoop.calc_stop_update k m pos atr_val trailing_price).trailing_price =
      some trailing_price ∧
    (MainLoop.calc_stop_update k m pos atr_val trailing_price).stop_price =
      roundTo 1 (Dualk.calculate_stop_price k m pos.side
        (MainLoop.get_reference_price pos) trailing_price atr_val) ∧
    MainLoop.get_reference_price
        (MainLoop.calc_stop_update k m pos atr_val trailing_price) =
      MainLoop.get_reference_price pos := by
  refine ⟨rfl, rfl, rfl, rfl⟩

/-- Under a same-ATR consistent stored stop, the deviation-band recalibration
is a no-op on the trailing price and the stop price. -/
theorem MainLoop.recalib_step_consistent (k m : ℚ) (pos : TPos) (atr t : ℚ)
    (ht : pos.trailing_price = some t)
    (hc : pos.stop_price = roundTo 1 (Dualk.calculate_stop_price k m pos.side
      (MainLoop.get_reference_price pos) t atr)) :
    (MainLoop.recalib_step k m pos atr).side = pos.side ∧
    (MainLoop.recalib_step k m pos atr).trailing_price = some t ∧
    (MainLoop.recalib_step k m pos atr).stop_price = pos.stop_price ∧
    MainLoop.get_reference_price (MainLoop.recalib_step k m pos atr) =
      MainLoop.get_reference_price pos := by
  rw [MainLoop.recalib_step]
  split_ifs with h
  · rw [ht]
    exact ⟨rfl, rfl, by rw [hc]; rfl, rfl⟩
  · exact ⟨rfl, ht, rfl, rfl⟩

/-- C1: one session update of an activated DualK position whose stored stop
is consistent with the same ATR value only ratchets in the position's favour:
for a sell position neither the trailing price nor the stop price decreases,
for a buy position neither increases. -/
theorem c1_ratchet_monotone (k m : ℚ) (pos : TPos) (current_price atr : ℚ)
    (g : Bool) (t : ℚ) (pos2 : TPos)
    (ht : pos.trailing_price = some t)
    (hc : pos.stop_price = roundTo 1 (Dualk.calculate_stop_price k m pos.side
      (MainLoop.get_reference_price pos) t atr))
    (hres : MainLoop.update_active k m pos current_price atr g = .cont pos2) :
    (pos.side = .sell → ∃ u, pos2.trailing_price = some u ∧ t ≤ u ∧
      pos.stop_price ≤ pos2.stop_price) ∧
    (pos.side = .buy → ∃ u, pos2.trailing_price = some u ∧ u ≤ t ∧
      pos2.stop_price ≤ pos.stop_price) := by
  obtain ⟨hside, htr, hsp, href⟩ :=
    MainLoop.recalib_step_consistent k m pos atr t ht hc
  rw [MainLoop.update_active] at hres
  generalize hq : MainLoop.recalib_step k m pos atr = pos1 at hres hside htr hsp href
  split_ifs at hres with hclose htrail
  · obtain rfl : MainLoop.calc_stop_update k m pos1 atr current_price =
        pos2 := by injection hres
    obtain ⟨-, htr2, hsp2, -⟩ :=
      MainLoop.calc_stop_update_fields k m pos1 atr current_price
    rw [hside, href] at hsp2
    constructor
    · intro hs
      rcases htrail with ⟨-, hlt⟩ | ⟨hb, -⟩
      · rw [htr] at hlt
        simp only [Option.getD_some] at hlt
        refine ⟨current_price, htr2, le_of_lt hlt, ?_⟩
        rw [hsp2, hc]
        exact roundTo_mono 1
          (Dualk.calculate_stop_price_mono_trailing k m pos.side _
            (le_of_lt hlt) atr)
      · rw [hside, hs] at hb
        exact absurd hb (by simp)
    · intro hb
      rcases htrail with ⟨hs, -⟩ | ⟨-, hlt⟩
      · rw [hside, hb] at hs
        exact absurd hs (by simp)
      · rw [htr] at hlt
        simp only [Option.getD_some] at hlt
        refine ⟨current_price, htr2, le_of_lt hlt, ?_⟩
        rw [hsp2, hc]
        exact roundTo_mono 1
          (Dualk.calculate_stop_price_mono_trailing k m pos.side _
            (le_of_lt hlt) atr)
  · obtain rfl : pos1 = pos2 := by injection hres
    exact ⟨fun _ => ⟨t, htr, le_refl t, le_of_eq hsp.symm⟩,
      fun _ => ⟨t, htr, le_refl t, le_of_eq hsp⟩⟩

/-- An activated sell position matching the spec's scenario-2 numbers:
entry 20000, trailing 20500, stop 20250 computed with K_STOP 2.5 and
ATR 100. -/
def c1Pos : TPos :=
  { side := .sell
    mode := .dualk
    created_time := 0
    opening_order := [1]
    entry_price := 20000
    volume := 1
    cost := 20000
    activation_atr := 100
    activation_price := 20450
    trailing_price := some 20500
    stop_price := 20250
    stop_atr := 100 }

/-- C1 witness: the scenario-3 update (price rises to 20800 with the same
ATR 100) advances the trailing price to 20800 and the stop from 20250 to
20550. -/
theorem c1_witness :
    (c1Pos.side = .sell → ∃ u,
      ({ c1Pos with
          trailing_price := some 20800
          stop_price := 20550
          stop_atr := 100 } : TPos).trailing_price = some u ∧
      (20500 : ℚ) ≤ u ∧
      c1Pos.stop_price ≤ ({ c1Pos with
          trailing_price := some 20800
          stop_price := 20550
          stop_atr := 100 } : TPos).stop_price) ∧
    (c1Pos.side = .buy → ∃ u,
      ({ c1Pos with
          trailing_price := some 20800
          stop_price := 20550
          stop_atr := 100 } : TPos).trailing_price = some u ∧
      u ≤ (20500 : ℚ) ∧
      ({ c1Pos with
          trailing_price := some 20800
          stop_price := 20550
          stop_atr := 100 } : TPos).stop_price ≤ c1Pos.stop_price) := by
  refine c1_ratchet_monotone (5/2) 0 c1Pos 20800 100 true 20500 _ rfl ?_ ?_
  · norm_num [c1Pos, MainLoop.get_reference_price,
      Dualk.calculate_stop_price_sell_eq, roundTo, round_eq, Int.floor_eq_iff]
  · norm_num [c1Pos, MainLoop.update_active, MainLoop.recalib_step,
      MainLoop.calc_stop_update, MainLoop.get_reference_price,
      Dualk.calculate_stop_price_sell_eq, roundTo, round_eq, Int.floor_eq_iff]
    try simp
    try exact fun h => Side.noConfusion h

/-- C9 amended: the deviation-band recalibration recomputes the stop from the
*stored* `trailing_price` (not the current price), and for an *upward* ATR
drift (`atr0 ≤ atr`, `0 ≤ K_STOP`) it never causes a close that the
pre-recalibration stop would not also have triggered; a downward ATR drift
can tighten the stop into a same-session close (see the counterexample). -/
theorem c9_recalibration_uses_trailing (k m : ℚ) (pos : TPos)
    (current_price atr atr0 : ℚ) (g : Bool) (t : ℚ)
    (ht : pos.trailing_price = some t)
    (hc : pos.stop_price = roundTo 1 (Dualk.calculate_stop_price k m pos.side
      (MainLoop.get_reference_price pos) t atr0))
    (hk : 0 ≤ k) (hup : atr0 ≤ atr) :
    (pos.stop_atr * (8/10) > atr ∨ atr > pos.stop_atr * (12/10) →
      (MainLoop.recalib_step k m pos atr).stop_price =
        roundTo 1 (Dualk.calculate_stop_price k m pos.side
          (MainLoop.get_reference_price pos) t atr)) ∧
    ∀ p, MainLoop.update_active k m pos current_price atr g = .close p →
      (pos.side = .sell → current_price ≤ pos.stop_price) ∧
      (pos.side = .buy → pos.stop_price ≤ current_price) := by
  constructor
  · intro hdrift
    rw [MainLoop.recalib_step, if_pos hdrift, ht]
    rfl
  · intro p hres
    have hstop : (MainLoop.recalib_step k m pos atr).side = pos.side ∧
        ((pos.side = .sell →
          (MainLoop.recalib_step k m pos atr).stop_price ≤ pos.stop_price) ∧
         (pos.side = .buy →
          pos.stop_price ≤ (MainLoop.recalib_step k m pos atr).stop_price)) := by
      rw [MainLoop.recalib_step]
      split_ifs with hdrift
      · refine ⟨rfl, ?_, ?_⟩
        · intro hs
          rw [hc]
          show roundTo 1 (Dualk.calculate_stop_price k m pos.side
            (MainLoop.get_reference_price pos) ((pos.trailing_price).getD 0) atr) ≤ _
          rw [ht, Option.getD_some, hs]
          exact roundTo_mono 1
            (Dualk.calculate_stop_price_atr_sell k m _ t hk hup)
        · intro hb
          rw [hc]
          show _ ≤ roundTo 1 (Dualk.calculate_stop_price k m pos.side
            (MainLoop.get_reference_price pos) ((pos.trailing_price).getD 0) atr)
          rw [ht, Option.getD_some, hb]
          exact roundTo_mono 1
            (Dualk.calculate_stop_price_atr_buy k m _ t hk hup)
      · exact ⟨rfl, fun _ => le_refl _, fun _ => le_refl _⟩
    obtain ⟨hside, hsell, hbuy⟩ := hstop
    rw [MainLoop.update_active] at hres
    generalize hq : MainLoop.recalib_step k m pos atr = pos1 at hres hside hsell hbuy
    split_ifs at hres with hclose
    rcases hclose with ⟨hs, hle, -⟩ | ⟨hb, hle⟩
    · rw [hside] at hs
      exact ⟨fun _ => le_trans hle (hsell hs),
        fun hb => absurd (hs.symm.trans hb) (by simp)⟩
    · rw [hside] at hb
      exact ⟨fun hs => absurd (hb.symm.trans hs) (by simp),
        fun _ => le_trans (hbuy hb) hle⟩

/-- An activated sell position with a stored stop computed from ATR 10
(entry 50, trailing 100, K_STOP 2, stop 80), used by the C9 statements. -/
def c9Pos : TPos :=
  { side := .sell
    mode := .dualk
    created_time := 0
    opening_order := [3]
    entry_price := 50
    volume := 1
    cost := 50
    activation_atr := 10
    activation_price := 60
    trailing_price := some 100
    stop_price := 80
    stop_atr := 10 }

/-- C9 counterexample: with the ATR dropping from 10 to 7 (below the 0.8
band edge) the recalibration tightens the stop from 80 to 86, and the session
then closes at price 85 even though 85 is above the old stop 80 — the
recalibration alone caused a same-session close, contradicting the claim. -/
theorem c9_counterexample :
    MainLoop.update_active 2 0 c9Pos 85 7 true =
      .close { c9Pos with
        trailing_price := some 100
        stop_price := 86
        stop_atr := 7 } ∧
    c9Pos.stop_price = roundTo 1 (Dualk.calculate_stop_price 2 0 .sell 50 100 10) ∧
    c9Pos.stop_price < 85 := by
  refine ⟨?_, ?_, by norm_num [c9Pos]⟩
  · norm_num [c9Pos, MainLoop.update_active, MainLoop.recalib_step,
      MainLoop.calc_stop_update, MainLoop.get_reference_price,
      Dualk.calculate_stop_price_sell_eq, roundTo, round_eq, Int.floor_eq_iff]
  · norm_num [c9Pos, Dualk.calculate_stop_price_sell_eq, roundTo, round_eq,
      Int.floor_eq_iff]

/-- C9 witness: an upward drift (ATR 10 → 13) recalibrates the stop to 74
using the stored trailing price 100, and the close that then fires at price
70 satisfies the old stop 80 as well. -/
theorem c9_witness :
    (c9Pos.stop_atr * (8/10) > 13 ∨ (13:ℚ) > c9Pos.stop_atr * (12/10) →
      (MainLoop.recalib_step 2 0 c9Pos 13).stop_price =
        roundTo 1 (Dualk.calculate_stop_price 2 0 c9Pos.side
          (MainLoop.get_reference_price c9Pos) 100 13)) ∧
    ∀ p, MainLoop.update_active 2 0 c9Pos 70 13 true = .close p →
      (c9Pos.side = .sell → (70:ℚ) ≤ c9Pos.stop_price) ∧
      (c9Pos.side = .buy → c9Pos.stop_price ≤ 70) :=
  c9_recalibration_uses_trailing 2 0 c9Pos 70 13 10 true 100 rfl
    (by norm_num [c9Pos, MainLoop.get_reference_price,
      Dualk.calculate_stop_price_sell_eq, roundTo, round_eq, Int.floor_eq_iff])
    (by norm_num) (by norm_num)

/-- Rewriting one entry in place never changes the key sequence of the
state. -/
theorem MainLoop.update_entry_keys (st : MainLoop.PairState) (eid : ℕ)
    (p : TPos) :
    (MainLoop.update_entry st eid p).map Prod.fst = st.map Prod.fst := by
  induction st with
  | nil => rfl
  | cons a t ih =>
    simp only [MainLoop.update_entry, List.map_cons] at ih ⊢
    by_cases h : a.1 = eid <;> simp [h, ih]

/-- A pending sell position created from a filled buy at 20000 (volume 1,
cost 20000), used by the C8 merge statements. -/
def c8Pos : TPos :=
  { side := .sell
    mode := .dualk
    created_time := 0
    opening_order := [1]
    entry_price := 20000
    volume := 1
    cost := 20000
    activation_atr := 100
    activation_price := 20450 }

/-- C8 counterexample: a second filled buy at 20010 (within the 0.5%
tolerance of the pending sell at 20000) is merged — but the stored cost is
`(volume sum) · entry = 40000`, not the sum of the two costs
`20000 + 20010 = 40010`, refuting "summing the costs" for a sell-side
merge. -/
theorem c8_counterexample :
    MainLoop.merge_or_create .dualk [(1, c8Pos)] 2 .sell 20010 1 20010 100
        20460 5 =
      [(1, { c8Pos with
              volume := 2
              cost := 40000
              opening_order := [1, 2] })] ∧
    c8Pos.cost + 20010 ≠ (40000 : ℚ) := by
  have hfind : MainLoop.find_merge_target .dualk [(1, c8Pos)] .sell 20010 =
      some (1, c8Pos) := by
    rw [MainLoop.find_merge_target]
    apply List.find?_cons_of_pos
    simp only [decide_eq_true_eq]
    norm_num [c8Pos, MainLoop.get_reference_price]
  constructor
  · rw [MainLoop.merge_or_create, hfind]
    simp only [MainLoop.update_entry, List.map_cons, List.map_nil]
    norm_num [c8Pos, roundTo, round_eq, Int.floor_eq_iff]
  · norm_num [c8Pos]

/-- C8 amended: whenever the merge scan finds a pending same-mode,
same-direction position within tolerance, the order is folded into that entry
and no new position is created (the key sequence is unchanged); a sell-side
merge sums the volumes and recomputes the cost as (volume sum)·entry, a
buy-side merge sums the costs and recomputes the volume as (cost sum)/entry. -/
theorem c8_merge_folds_into_existing (mode : Mode) (st : MainLoop.PairState)
    (order_id : ℕ) (new_side : Side)
    (entry_price volume cost atr_value activation_price : ℚ) (now_ts : ℕ)
    (eid : ℕ) (pos : TPos)
    (hfind : MainLoop.find_merge_target mode st new_side entry_price =
      some (eid, pos)) :
    ∃ merged : TPos,
      MainLoop.merge_or_create mode st order_id new_side entry_price volume
          cost atr_value activation_price now_ts =
        MainLoop.update_entry st eid merged ∧
      (MainLoop.merge_or_create mode st order_id new_side entry_price volume
          cost atr_value activation_price now_ts).map Prod.fst =
        st.map Prod.fst ∧
      merged.opening_order = pos.opening_order ++ [order_id] ∧
      (new_side = .sell →
        merged.volume = roundTo 8 (pos.volume + volume) ∧
        merged.cost = roundTo 2 ((pos.volume + volume) * pos.entry_price)) ∧
      (new_side = .buy →
        merged.cost = roundTo 2 (pos.cost + cost) ∧
        merged.volume = roundTo 8 ((pos.cost + cost) / pos.entry_price)) := by
  rw [MainLoop.merge_or_create, hfind]
  cases new_side
  · exact ⟨_, rfl, by rw [MainLoop.update_entry_keys], rfl,
      by intro h; exact absurd h (by simp), by intro h; exact ⟨rfl, rfl⟩⟩
  · exact ⟨_, rfl, by rw [MainLoop.update_entry_keys], rfl,
      by intro h; exact ⟨rfl, rfl⟩, by intro h; exact absurd h (by simp)⟩

/-- C8 witness: merging the second buy of the counterexample input through
the amended theorem. -/
theorem c8_witness :
    ∃ merged : TPos,
      MainLoop.merge_or_create .dualk [(1, c8Pos)] 2 .sell 20010 1 20010 100
          20460 5 =
        MainLoop.update_entry [(1, c8Pos)] 1 merged ∧
      (MainLoop.merge_or_create .dualk [(1, c8Pos)] 2 .sell 20010 1 20010 100
          20460 5).map Prod.fst =
        [(1, c8Pos)].map Prod.fst ∧
      merged.opening_order = c8Pos.opening_order ++ [2] ∧
      (Side.sell = .sell →
        merged.volume = roundTo 8 (c8Pos.volume + 1) ∧
        merged.cost = roundTo 2 ((c8Pos.volume + 1) * c8Pos.entry_price)) ∧
      (Side.sell = .buy →
        merged.cost = roundTo 2 (c8Pos.cost + 20010) ∧
        merged.volume = roundTo 8 ((c8Pos.cost + 20010) / c8Pos.entry_price)) :=
  c8_merge_folds_into_existing .dualk [(1, c8Pos)] 2 .sell 20010 1 20010 100
    20460 5 1 c8Pos (by
      rw [MainLoop.find_merge_target]
      apply List.find?_cons_of_pos
      simp only [decide_eq_true_eq]
      norm_num [c8Pos, MainLoop.get_reference_price])

/-- C7: in DualK mode the strategy formula does yield a pending-sell
activation price of `entry + K_ACT·ATR = 20450` for a filled buy at 20000
with ATR 100 and K_ACT 4.5, but `dualk.process_order` returns a two-element
tuple while `process_closed_order` unpacks three names, so processing the
order raises `ValueError` and no pending position is created. -/
theorem c7_process_order_unpack_valueerror :
    Dualk.process_order (9/2) .buy 20000 100 = (.sell, 20450) ∧
    Dualk.process_order_tuple_len ≠ MainLoop.process_order_unpack_count ∧
    MainLoop.process_closed_order (9/2) [] 5 .buy 20000 1 20000 100 42 =
      .error .valueError := by
  refine ⟨?_, by decide, ?_⟩
  · norm_num [Dualk.process_order, Dualk.calculate_activation_dist]
  · rfl

end BoTCoin
